import Mathlib

/-!
Verification of the Cadence and Alert Engine of src/app.py.

Calendar dates are modelled as proleptic Gregorian ordinals, exactly as in
the Python datetime module: toOrdinal 1 1 1 = 1, and weekday n = (n + 6) % 7
with Monday = 0, matching datetime.date.weekday. Mentee records store their
fields as raw strings, as the spreadsheet rows do; date fields are parsed
with parseDate, the model of datetime.strptime with format YYYY-MM-DD.
-/

namespace Followup

/-- Gregorian leap-year test. -/
def isLeap (y : Nat) : Bool :=
  (y % 4 == 0 && y % 100 != 0) || (y % 400 == 0)

/-- Number of days in month m of year y (months are 1-based). -/
def daysInMonth (y m : Nat) : Nat :=
  if m = 2 then (if isLeap y then 29 else 28)
  else if m = 4 ∨ m = 6 ∨ m = 9 ∨ m = 11 then 30
  else 31

/-- Days in year y strictly before month m. -/
def daysBeforeMonth (y m : Nat) : Nat :=
  (List.range (m - 1)).foldl (fun acc i => acc + daysInMonth y (i + 1)) 0

/-- Proleptic Gregorian ordinal of the date y-m-d, as in
datetime.date.toordinal: 0001-01-01 has ordinal 1. -/
def toOrdinal (y m d : Nat) : Nat :=
  365 * (y - 1) + (y - 1) / 4 - (y - 1) / 100 + (y - 1) / 400
    + daysBeforeMonth y m + d

/-- Weekday of an ordinal, Monday = 0 through Sunday = 6, as in
datetime.date.weekday. -/
def weekday (n : Nat) : Nat := (n + 6) % 7

/-- ASCII lowercase of one character, the fragment of str.lower the record
fields exercise. -/
def lowerC (c : Char) : Char :=
  if 65 ≤ c.toNat ∧ c.toNat ≤ 90 then Char.ofNat (c.toNat + 32) else c

/-- ASCII uppercase of one character, the fragment of str.upper the record
fields exercise. -/
def upperC (c : Char) : Char :=
  if 97 ≤ c.toNat ∧ c.toNat ≤ 122 then Char.ofNat (c.toNat - 32) else c

/-- Whitespace test used by the model of str.strip. -/
def isSpaceC (c : Char) : Bool :=
  c.toNat = 32 ∨ (9 ≤ c.toNat ∧ c.toNat ≤ 13)

/-- ASCII decimal digit test. -/
def isDigitC (c : Char) : Bool :=
  48 ≤ c.toNat ∧ c.toNat ≤ 57

/-- Model of str.strip: drop leading and trailing whitespace. -/
def trimC (cs : List Char) : List Char :=
  ((cs.dropWhile isSpaceC).reverse.dropWhile isSpaceC).reverse

/-- Split a character list on a separator, as str.split at a single
character: the empty list yields one empty group. -/
def splitOnC (sep : Char) : List Char → List (List Char)
  | [] => [[]]
  | c :: rest =>
    let r := splitOnC sep rest
    if c == sep then [] :: r
    else
      match r with
      | g :: gs => (c :: g) :: gs
      | [] => [[c]]

/-- Digits of a decimal string folded into a Nat. -/
def digitsToNat (cs : List Char) : Nat :=
  cs.foldl (fun a c => a * 10 + (c.toNat - 48)) 0

/-- Parse a nonempty all-digit string as a Nat. -/
def parseNat (cs : List Char) : Option Nat :=
  if cs ≠ [] ∧ cs.all isDigitC then some (digitsToNat cs)
  else none

/-- Model of datetime.strptime(s, "%Y-%m-%d").date(): three dash-separated
numeric fields forming a valid calendar date, returned as its ordinal. -/
def parseDate (s : String) : Option Nat :=
  match splitOnC '-' s.data with
  | [ys, ms, ds] =>
    match parseNat ys, parseNat ms, parseNat ds with
    | some y, some m, some d =>
      if 1 ≤ y ∧ 1 ≤ m ∧ m ≤ 12 ∧ 1 ≤ d ∧ d ≤ daysInMonth y m then
        some (toOrdinal y m d)
      else none
    | _, _, _ => none
  | _ => none

/-- Index of s in xs, as the Python list.index method (None when absent). -/
def indexIn (xs : List (List Char)) (s : List Char) : Option Nat :=
  match xs with
  | [] => none
  | x :: rest => if x == s then some 0 else (indexIn rest s).map (· + 1)

/-- The weekday-name table of get_day_number (src/app.py line 161). -/
def dayNames : List (List Char) :=
  ["monday", "tuesday", "wednesday", "thursday", "friday", "saturday",
   "sunday"].map String.data

/-- get_day_number (src/app.py lines 160-163): index of the trimmed,
lowercased weekday name in the table, 0 when the name is not recognised. -/
def get_day_number (day_name : String) : Nat :=
  let clean := (trimC day_name.data).map lowerC
  match indexIn dayNames clean with
  | some i => i
  | none => 0

/-- The checkpoint-2 deadline computation of src/app.py lines 248-252:
days_until = (rep_wd - sess_wd) % 7, replaced by 7 when it is 0, and the
report is due that many days after the last session. Both weekday numbers
lie in [0, 7), so the Python int modulo equals this Nat computation. -/
def report_due_date (last_sess : Nat) (report_day : String) : Nat :=
  last_sess +
    (if (get_day_number report_day + 7 - weekday last_sess) % 7 = 0 then 7
     else (get_day_number report_day + 7 - weekday last_sess) % 7)

/-- Inverse of toOrdinal via the standard civil-from-days algorithm, shifted
so all intermediate values stay in Nat: z counts days from 0000-03-01, and
ordinal n corresponds to z = n + 305. Returns (year, month, day). -/
def fromOrdinal (n : Nat) : Nat × Nat × Nat :=
  let z := n + 305
  let era := z / 146097
  let doe := z % 146097
  let yoe := (doe - doe / 1460 + doe / 36524 - doe / 146096) / 365
  let y := yoe + era * 400
  let doy := doe - (365 * yoe + yoe / 4 - yoe / 100)
  let mp := (5 * doy + 2) / 153
  let d := doy - (153 * mp + 2) / 5 + 1
  let m := if mp < 10 then mp + 3 else mp - 9
  (if m ≤ 2 then y + 1 else y, m, d)

/-- Zero-pad a number to two digits, as in ISO date serialization. -/
def pad2 (n : Nat) : String :=
  if n < 10 then "0" ++ toString n else toString n

/-- Zero-pad a number to four digits, as in ISO date serialization. -/
def pad4 (n : Nat) : String :=
  if n < 10 then "000" ++ toString n
  else if n < 100 then "00" ++ toString n
  else if n < 1000 then "0" ++ toString n
  else toString n

/-- The string str(d) Python produces for a date with ordinal n: its ISO
YYYY-MM-DD form. Also models strftime with format YYYY-MM-DD. -/
def dateStr (n : Nat) : String :=
  let ymd := fromOrdinal n
  pad4 ymd.1 ++ "-" ++ pad2 ymd.2.1 ++ "-" ++ pad2 ymd.2.2

/-- The string str(b) Python produces for a bool. -/
def pyBoolStr (b : Bool) : String :=
  if b then "True" else "False"

/-- One row of the primary sheet as loaded into st.session_state.df: the
nine columns of the Missionary_Tracker sheet, all held as raw cell strings
(the Notify column is unused by the engine and omitted). -/
structure Record where
  name : String
  chat_link : String
  last_session_date : String
  next_session_date : String
  report_day : String
  p1 : String
  p2 : String
  p3 : String
deriving DecidableEq

/-- The test str(value).upper() == TRUE used everywhere a checkbox cell is
read as a boolean. -/
def isTrue (s : String) : Bool :=
  s.data.map upperC == "TRUE".data

/-- The three checkpoint columns toggle_status is invoked with
(P1_Sent_Encouragement, P2_Received_Report, P3_Sent_Prework, living in
sheet columns 6, 7, 8). -/
inductive CheckCol where
  | c1
  | c2
  | c3
deriving DecidableEq

/-- Read the named checkpoint cell of a record. -/
def getCheck (r : Record) : CheckCol → String
  | .c1 => r.p1
  | .c2 => r.p2
  | .c3 => r.p3

/-- Write the named checkpoint cell of a record. -/
def setCheck (r : Record) : CheckCol → String → Record
  | .c1, v => { r with p1 := v }
  | .c2, v => { r with p2 := v }
  | .c3, v => { r with p3 := v }

/-- Sheet column number of a checkpoint column. -/
def checkColIdx : CheckCol → Nat
  | .c1 => 6
  | .c2 => 7
  | .c3 => 8

/-- One alert of the Action Items list built in main (src/app.py lines
232-258), tagged with the checkpoint it concerns and the data interpolated
into its message. -/
inductive Alert where
  | encouragement (name : String)
  | reportOverdue (name : String) (due : Nat)
  | prework (name : String) (next : Nat)
deriving DecidableEq

/-- Alert evaluation for one record, the body of the loop at src/app.py
lines 234-258: parse both dates (on failure the record contributes
nothing), then test the three independent alert conditions in order. -/
def evalRecordAlerts (today : Nat) (r : Record) : List Alert :=
  match parseDate r.last_session_date, parseDate r.next_session_date with
  | some last_sess, some next_sess =>
    let p1 := isTrue r.p1
    let p2 := isTrue r.p2
    let p3 := isTrue r.p3
    let a1 := if ¬p1 ∧ today ≥ last_sess + 1 then [Alert.encouragement r.name]
              else []
    let due := report_due_date last_sess r.report_day
    let a2 := if ¬p2 ∧ today > due then [Alert.reportOverdue r.name due]
              else []
    let a3 := if ¬p3 ∧ today ≥ next_sess - 1 then [Alert.prework r.name next_sess]
              else []
    a1 ++ a2 ++ a3
  | _, _ => []

/-- The full alert pass over st.session_state.df, accumulating each record
in row order. -/
def evalAlerts (today : Nat) : List Record → List Alert
  | [] => []
  | r :: rest => evalRecordAlerts today r ++ evalAlerts today rest

/-- One write issued to the Remote Record Store: update_cell on the primary
sheet (1-based row, including the header offset, and 1-based column), or
append_row on the History sheet. -/
inductive RemoteOp where
  | updateCell (row : Nat) (col : Nat) (v : String)
  | appendHistory (entry : List String)
deriving DecidableEq

/-- True for primary-sheet cell writes. -/
def opIsUpdate : RemoteOp → Bool
  | .updateCell _ _ _ => true
  | .appendHistory _ => false

/-- The two spreadsheet tables: the primary sheet rows (below the header)
and the History sheet rows. -/
structure Sheets where
  main : List Record
  hist : List (List String)
deriving DecidableEq

/-- Write one primary-sheet cell of a record, by sheet column number
(1 Name, 2 Chat_Link, 3 Last_Session_Date, 4 Next_Session_Date,
5 Report_Day, 6-8 the checkpoints). -/
def setCol (r : Record) (c : Nat) (v : String) : Record :=
  if c = 1 then { r with name := v }
  else if c = 2 then { r with chat_link := v }
  else if c = 3 then { r with last_session_date := v }
  else if c = 4 then { r with next_session_date := v }
  else if c = 5 then { r with report_day := v }
  else if c = 6 then { r with p1 := v }
  else if c = 7 then { r with p2 := v }
  else if c = 8 then { r with p3 := v }
  else r

/-- Apply one remote write to the sheets. update_cell row r is record
index r - 2 (row 1 is the header, gspread rows are 1-based). -/
def applyOp (s : Sheets) : RemoteOp → Sheets
  | .updateCell row col v =>
    match s.main[row - 2]? with
    | some r => { s with main := s.main.set (row - 2) (setCol r col v) }
    | none => s
  | .appendHistory entry => { s with hist := s.hist ++ [entry] }

/-- Apply a sequence of remote writes in order. -/
def applyOps (s : Sheets) (ops : List RemoteOp) : Sheets :=
  ops.foldl applyOp s

example : weekday (toOrdinal 2024 6 5) = 2 := by decide
example : weekday (toOrdinal 2024 6 3) = 0 := by decide
example : get_day_number "Wednesday" = 2 := by decide
example : get_day_number " friday " = 4 := by decide
example : get_day_number "nonsense" = 0 := by decide
example : report_due_date (toOrdinal 2024 6 3) "Wednesday" = toOrdinal 2024 6 5 := by decide
example : report_due_date (toOrdinal 2024 6 5) "Wednesday" = toOrdinal 2024 6 12 := by decide
example : parseDate "2024-06-05" = some (toOrdinal 2024 6 5) := by decide
example : parseDate "2024-13-05" = none := by decide
example : parseDate "garbage" = none := by decide
example : parseDate "2024-02-30" = none := by decide
example : fromOrdinal (toOrdinal 2024 6 5) = (2024, 6, 5) := by decide
example : dateStr (toOrdinal 2024 6 5) = "2024-06-05" := by decide
example : dateStr (toOrdinal 2023 12 31 + 7) = "2024-01-07" := by decide
example : parseDate (dateStr (toOrdinal 2024 6 10 + 7)) = some (toOrdinal 2024 6 17) := by decide

/-- toggle_status (src/app.py lines 47-57): flip the named checkpoint cell
of row idx in the Local Mirror immediately, then attempt one remote cell
write; remoteOk tells whether that write lands (on failure only a toast is
shown and nothing is rolled back). Returns the new Local Mirror and the new
remote primary sheet. -/
def toggle_status (df : List Record) (main : List Record) (idx : Nat)
    (col : CheckCol) (remoteOk : Bool) : List Record × List Record :=
  match df[idx]? with
  | none => (df, main)
  | some r =>
    let current := (getCheck r col).data.map upperC
    let newVal := if current == "TRUE".data then "FALSE" else "TRUE"
    let dfNew := df.set idx (setCheck r col newVal)
    let mainNew :=
      if remoteOk then
        match main[idx]? with
        | some m => main.set idx (setCheck m col newVal)
        | none => main
      else main
    (dfNew, mainNew)

/-- The remote writes of log_and_reset (src/app.py lines 79-95), in issue
order: append the history row, then overwrite the two date cells, then
reset the three checkpoint cells. The checkpoint arguments arrive as Python
bools (the val_p1/val_p2/val_p3 of the caller), so the history row holds
str(bool) values. -/
def log_and_reset_ops (idx : Nat) (name : String) (p1 p2 p3 : Bool)
    (log_date new_last new_next : Nat) : List RemoteOp :=
  [ RemoteOp.appendHistory
      [dateStr log_date, name, pyBoolStr p1, pyBoolStr p2, pyBoolStr p3],
    RemoteOp.updateCell (idx + 2) 3 (dateStr new_last),
    RemoteOp.updateCell (idx + 2) 4 (dateStr new_next),
    RemoteOp.updateCell (idx + 2) 6 "FALSE",
    RemoteOp.updateCell (idx + 2) 7 "FALSE",
    RemoteOp.updateCell (idx + 2) 8 "FALSE" ]

/-- The single-mentee Finish Cycle action as wired up at src/app.py lines
275-301: read the checkpoint cells of row idx as booleans (val_p1, val_p2,
val_p3), read its name, and run log_and_reset with them against the sheets.
Identity when the row does not exist. -/
def finish_cycle (s : Sheets) (idx : Nat) (today new_last new_next : Nat) :
    Sheets :=
  match s.main[idx]? with
  | some r =>
    applyOps s (log_and_reset_ops idx r.name (isTrue r.p1) (isTrue r.p2)
      (isTrue r.p3) today new_last new_next)
  | none => s

/-- The loop body accumulation of process_universal_cycle (src/app.py lines
114-151), recursing over the rows of st.session_state.df with i the index
of the first row. Returns the in-loop cell writes in issue order, the
prepared history rows (log_rows), the processed count and the skipped
count. A row whose Next_Session_Date fails to parse, or lies strictly after
today, is skipped; otherwise the two date cells are overwritten from the
old Next_Session_Date and the three checkpoint cells reset. -/
def processRows (today : Nat) (i : Nat) :
    List Record → List RemoteOp × List (List String) × Nat × Nat
  | [] => ([], [], 0, 0)
  | row :: rest =>
    let acc := processRows today (i + 1) rest
    match parseDate row.next_session_date with
    | none => (acc.1, acc.2.1, acc.2.2.1, acc.2.2.2 + 1)
    | some next_sess =>
      if today < next_sess then (acc.1, acc.2.1, acc.2.2.1, acc.2.2.2 + 1)
      else
        ( RemoteOp.updateCell (i + 2) 3 (dateStr next_sess)
            :: RemoteOp.updateCell (i + 2) 4 (dateStr (next_sess + 7))
            :: RemoteOp.updateCell (i + 2) 6 "FALSE"
            :: RemoteOp.updateCell (i + 2) 7 "FALSE"
            :: RemoteOp.updateCell (i + 2) 8 "FALSE"
            :: acc.1,
          [dateStr today, row.name, row.p1, row.p2, row.p3] :: acc.2.1,
          acc.2.2.1 + 1, acc.2.2.2 )

/-- process_universal_cycle (src/app.py lines 97-158): run the loop over
the Local Mirror rows, then append all prepared history rows after the
loop. Returns the full remote write sequence in issue order together with
the processed and skipped counts. -/
def process_universal_cycle (today : Nat) (df : List Record) :
    List RemoteOp × Nat × Nat :=
  let acc := processRows today 0 df
  (acc.1 ++ acc.2.1.map RemoteOp.appendHistory, acc.2.2.1, acc.2.2.2)

/-- The gating predicate of the batch processor: the row has a parseable
Next_Session_Date and it is on or before today. -/
def isDue (today : Nat) (r : Record) : Bool :=
  match parseDate r.next_session_date with
  | some n => n ≤ today
  | none => false

/-- The per-record effect of one batch run on the primary sheet: a due row
gets Last_Session_Date = old Next_Session_Date, Next_Session_Date = old
value + 7 days, and all checkpoints FALSE; every other row is unchanged. -/
def dueStep (today : Nat) (r : Record) : Record :=
  match parseDate r.next_session_date with
  | some n =>
    if today < n then r
    else { r with last_session_date := dateStr n,
                  next_session_date := dateStr (n + 7),
                  p1 := "FALSE", p2 := "FALSE", p3 := "FALSE" }
  | none => r

/-- The history row the batch processor prepares for a due record. -/
def batchLogRow (today : Nat) (r : Record) : List String :=
  [dateStr today, r.name, r.p1, r.p2, r.p3]

theorem indexIn_lt_length {xs : List (List Char)} {s : List Char} {i : Nat}
    (h : indexIn xs s = some i) : i < xs.length := by
  induction xs generalizing i with
  | nil => simp [indexIn] at h
  | cons x rest ih =>
    by_cases hx : (x == s) = true
    · simp [indexIn, hx] at h
      simp [← h]
    · simp only [indexIn, hx, if_neg, Bool.false_eq_true, if_false,
        Option.map_eq_some'] at h
      obtain ⟨j, hj, rfl⟩ := h
      have := ih hj
      simp only [List.length_cons]
      omega

theorem get_day_number_lt (s : String) : get_day_number s < 7 := by
  unfold get_day_number
  cases h : indexIn dayNames ((trimC s.data).map lowerC) with
  | none => simp [h]
  | some i =>
    have := indexIn_lt_length h
    simp only [dayNames, List.length_map, List.length_cons,
      List.length_nil] at this
    simpa [h] using this

theorem weekday_lt (n : Nat) : weekday n < 7 :=
  Nat.mod_lt _ (by norm_num)

/-- C1: for every record the computed checkpoint-2 deadline is
last_session_date plus the offset (report_weekday_index minus the weekday
index of last_session_date, modulo 7, in Python integer semantics), with an
offset of 0 replaced by 7; and concretely, a last session on 2024-06-05
(a Wednesday) with report weekday Wednesday yields the deadline 2024-06-12,
not the same day. -/
theorem C1_deadline_formula :
    (∀ (last : Nat) (day : String),
      (report_due_date last day : Int) =
        (last : Int) +
          (if ((get_day_number day : Int) - (weekday last : Int)) % 7 = 0
           then 7
           else ((get_day_number day : Int) - (weekday last : Int)) % 7))
    ∧ weekday (toOrdinal 2024 6 5) = 2
    ∧ get_day_number "Wednesday" = 2
    ∧ report_due_date (toOrdinal 2024 6 5) "Wednesday" = toOrdinal 2024 6 12
    ∧ toOrdinal 2024 6 12 ≠ toOrdinal 2024 6 5 := by
  refine ⟨?_, by decide, by decide, by decide, by decide⟩
  intro last day
  have ha := get_day_number_lt day
  have hb := weekday_lt last
  unfold report_due_date
  split_ifs with h1 h2 h2 <;> push_cast <;> omega

/-- C3 counterexample: the record with last_session_date 2024-06-05,
next_session_date 2024-06-12 (exactly 7 days later, the standard cadence)
and report weekday Wednesday has its checkpoint-2 deadline equal to
next_session_date, not strictly before it. -/
theorem C3_counterexample :
    parseDate "2024-06-05" = some (toOrdinal 2024 6 5)
    ∧ parseDate "2024-06-12" = some (toOrdinal 2024 6 5 + 7)
    ∧ ¬ report_due_date (toOrdinal 2024 6 5) "Wednesday" <
        toOrdinal 2024 6 5 + 7 := by
  decide

/-- C3 amended: the checkpoint-2 deadline is always at least
last_session_date (indeed strictly after it); under the standard 7-day
cadence it is at most next_session_date, strictly before it exactly when
the last session did not fall on the report weekday, and equal to it when
it did. -/
theorem C3_deadline_bounds (last : Nat) (day : String) :
    last ≤ report_due_date last day
    ∧ last < report_due_date last day
    ∧ report_due_date last day ≤ last + 7
    ∧ (weekday last ≠ get_day_number day →
        report_due_date last day < last + 7)
    ∧ (weekday last = get_day_number day →
        report_due_date last day = last + 7) := by
  have ha := get_day_number_lt day
  have hb := weekday_lt last
  unfold report_due_date
  split_ifs with h <;> omega

theorem getElem?_set_of_some {α : Type} :
    ∀ (l : List α) (i : Nat) (a b : α), l[i]? = some a →
      (l.set i b)[i]? = some b
  | [], i, a, b, h => by simp at h
  | x :: xs, 0, a, b, h => by simp
  | x :: xs, i + 1, a, b, h => by
    simp only [List.set, List.getElem?_cons_succ] at h ⊢
    exact getElem?_set_of_some xs i a b h

/-- A concrete mentee record for the alert witnesses: last session Monday
2024-06-03, next session 2024-06-10, report weekday Wednesday, so the
checkpoint-2 deadline is Wednesday 2024-06-05. -/
def recMon : Record :=
  ⟨"Ana", "", "2024-06-03", "2024-06-10", "Wednesday", "FALSE", "FALSE",
   "FALSE"⟩

/-- C6: the checkpoint-2 alert of a record with parseable dates is emitted
exactly when checkpoint 2 is not done and today is strictly after the
computed checkpoint-2 deadline. -/
theorem C6_report_alert (today : Nat) (r : Record) (last next : Nat)
    (hl : parseDate r.last_session_date = some last)
    (hn : parseDate r.next_session_date = some next) :
    Alert.reportOverdue r.name (report_due_date last r.report_day) ∈
        evalRecordAlerts today r
      ↔ (isTrue r.p2 = false ∧ report_due_date last r.report_day < today) := by
  simp only [evalRecordAlerts, hl, hn]
  split_ifs with h1 h2 h3 <;> simp_all

/-- C6 witness: with the deadline on 2024-06-05 and checkpoint 2 not done,
today = 2024-06-05 gives no alert (the right side fails) and
today = 2024-06-06 gives the alert. -/
theorem C6_report_alert_witness :
    (Alert.reportOverdue recMon.name
        (report_due_date (toOrdinal 2024 6 3) recMon.report_day) ∈
          evalRecordAlerts (toOrdinal 2024 6 5) recMon
      ↔ (isTrue recMon.p2 = false ∧
          report_due_date (toOrdinal 2024 6 3) recMon.report_day <
            toOrdinal 2024 6 5))
    ∧ (Alert.reportOverdue recMon.name
        (report_due_date (toOrdinal 2024 6 3) recMon.report_day) ∈
          evalRecordAlerts (toOrdinal 2024 6 6) recMon
      ↔ (isTrue recMon.p2 = false ∧
          report_due_date (toOrdinal 2024 6 3) recMon.report_day <
            toOrdinal 2024 6 6)) :=
  ⟨C6_report_alert (toOrdinal 2024 6 5) recMon (toOrdinal 2024 6 3)
      (toOrdinal 2024 6 10) (by decide) (by decide),
   C6_report_alert (toOrdinal 2024 6 6) recMon (toOrdinal 2024 6 3)
      (toOrdinal 2024 6 10) (by decide) (by decide)⟩

/-- C7: for a record with parseable dates, the checkpoint-1 alert is
emitted exactly when checkpoint 1 is not done and today is at least
last_session_date + 1, and the checkpoint-3 alert exactly when checkpoint 3
is not done and today is at least next_session_date - 1 (both inclusive of
the due day); the rules being independent, all three alerts fire together
on the concrete record recMon on 2024-06-09. -/
theorem C7_edge_alerts (today : Nat) (r : Record) (last next : Nat)
    (hl : parseDate r.last_session_date = some last)
    (hn : parseDate r.next_session_date = some next) :
    (Alert.encouragement r.name ∈ evalRecordAlerts today r
      ↔ (isTrue r.p1 = false ∧ last + 1 ≤ today))
    ∧ (Alert.prework r.name next ∈ evalRecordAlerts today r
      ↔ (isTrue r.p3 = false ∧ next - 1 ≤ today))
    ∧ Alert.encouragement "Ana" ∈
        evalRecordAlerts (toOrdinal 2024 6 9) recMon
    ∧ Alert.reportOverdue "Ana" (toOrdinal 2024 6 5) ∈
        evalRecordAlerts (toOrdinal 2024 6 9) recMon
    ∧ Alert.prework "Ana" (toOrdinal 2024 6 10) ∈
        evalRecordAlerts (toOrdinal 2024 6 9) recMon := by
  refine ⟨?_, ?_, by decide, by decide, by decide⟩ <;>
    · simp only [evalRecordAlerts, hl, hn]
      split_ifs with h1 h2 h3 <;> simp_all

/-- C7 witness: the two iffs instantiated on recMon the day before the next
session, where both the checkpoint-1 and checkpoint-3 alerts are active. -/
theorem C7_edge_alerts_witness :
    (Alert.encouragement recMon.name ∈
        evalRecordAlerts (toOrdinal 2024 6 9) recMon
      ↔ (isTrue recMon.p1 = false ∧ toOrdinal 2024 6 3 + 1 ≤ toOrdinal 2024 6 9))
    ∧ (Alert.prework recMon.name (toOrdinal 2024 6 10) ∈
        evalRecordAlerts (toOrdinal 2024 6 9) recMon
      ↔ (isTrue recMon.p3 = false ∧
          toOrdinal 2024 6 10 - 1 ≤ toOrdinal 2024 6 9))
    ∧ Alert.encouragement "Ana" ∈
        evalRecordAlerts (toOrdinal 2024 6 9) recMon
    ∧ Alert.reportOverdue "Ana" (toOrdinal 2024 6 5) ∈
        evalRecordAlerts (toOrdinal 2024 6 9) recMon
    ∧ Alert.prework "Ana" (toOrdinal 2024 6 10) ∈
        evalRecordAlerts (toOrdinal 2024 6 9) recMon :=
  C7_edge_alerts (toOrdinal 2024 6 9) recMon (toOrdinal 2024 6 3)
    (toOrdinal 2024 6 10) (by decide) (by decide)

/-- C8: a record either of whose date fields fails to parse contributes no
alerts at all, and the alert pass over a table containing it evaluates
every other record exactly as if the malformed record were absent. -/
theorem C8_malformed_skipped (today : Nat) (r : Record)
    (pre post : List Record)
    (h : parseDate r.last_session_date = none ∨
         parseDate r.next_session_date = none) :
    evalRecordAlerts today r = []
    ∧ evalAlerts today (pre ++ r :: post) =
        evalAlerts today pre ++ evalAlerts today post := by
  have hr : evalRecordAlerts today r = [] := by
    rcases h with h | h
    · simp [evalRecordAlerts, h]
    · cases hp : parseDate r.last_session_date <;>
        simp [evalRecordAlerts, h, hp]
  refine ⟨hr, ?_⟩
  induction pre with
  | nil => simp [evalAlerts, hr]
  | cons a as ih => simp [evalAlerts, ih, List.append_assoc]

/-- C8 witness: a record with unparseable Last_Session_Date between two
well-formed records is skipped and the rest still evaluate. -/
theorem C8_malformed_skipped_witness :
    evalRecordAlerts (toOrdinal 2024 6 9)
        ⟨"Bad", "", "06/03/2024", "2024-06-10", "Monday", "FALSE", "FALSE",
         "FALSE"⟩ = []
    ∧ evalAlerts (toOrdinal 2024 6 9)
        ([recMon] ++
          ⟨"Bad", "", "06/03/2024", "2024-06-10", "Monday", "FALSE", "FALSE",
           "FALSE"⟩ :: [recMon]) =
        evalAlerts (toOrdinal 2024 6 9) [recMon] ++
          evalAlerts (toOrdinal 2024 6 9) [recMon] :=
  C8_malformed_skipped (toOrdinal 2024 6 9)
    ⟨"Bad", "", "06/03/2024", "2024-06-10", "Monday", "FALSE", "FALSE",
     "FALSE"⟩ [recMon] [recMon] (Or.inl (by decide))

/-- C9: toggle_status rewrites the named checkpoint of row idx in the Local
Mirror immediately, turning a cell that reads as true into FALSE and any
other cell into TRUE; the Local Mirror read back at idx shows the new value,
and the local outcome is the same whether or not the remote write lands. -/
theorem C9_toggle_local (df main : List Record) (idx : Nat) (col : CheckCol)
    (r : Record) (remoteOk : Bool) (h : df[idx]? = some r) :
    (toggle_status df main idx col remoteOk).1 =
      df.set idx (setCheck r col
        (if isTrue (getCheck r col) then "FALSE" else "TRUE"))
    ∧ ((toggle_status df main idx col remoteOk).1[idx]?.map
        (fun r2 => getCheck r2 col)) =
      some (if isTrue (getCheck r col) then "FALSE" else "TRUE")
    ∧ (toggle_status df main idx col remoteOk).1 =
      (toggle_status df main idx col true).1 := by
  have h1 : (toggle_status df main idx col remoteOk).1 =
      df.set idx (setCheck r col
        (if isTrue (getCheck r col) then "FALSE" else "TRUE")) := by
    simp only [toggle_status, h, isTrue]
  have h2 : (toggle_status df main idx col true).1 =
      df.set idx (setCheck r col
        (if isTrue (getCheck r col) then "FALSE" else "TRUE")) := by
    simp only [toggle_status, h, isTrue]
  refine ⟨h1, ?_, h1.trans h2.symm⟩
  rw [h1, getElem?_set_of_some df idx r _ h]
  cases col <;> simp [getCheck, setCheck]

/-- C9 witness: toggling checkpoint 1 of recMon (reading FALSE) yields TRUE
in the Local Mirror at once, with a failed remote write. -/
theorem C9_toggle_local_witness :
    (toggle_status [recMon] [recMon] 0 CheckCol.c1 false).1 =
      [recMon].set 0 (setCheck recMon CheckCol.c1
        (if isTrue (getCheck recMon CheckCol.c1) then "FALSE" else "TRUE"))
    ∧ ((toggle_status [recMon] [recMon] 0 CheckCol.c1 false).1[0]?.map
        (fun r2 => getCheck r2 CheckCol.c1)) =
      some (if isTrue (getCheck recMon CheckCol.c1) then "FALSE" else "TRUE")
    ∧ (toggle_status [recMon] [recMon] 0 CheckCol.c1 false).1 =
      (toggle_status [recMon] [recMon] 0 CheckCol.c1 true).1 :=
  C9_toggle_local [recMon] [recMon] 0 CheckCol.c1 recMon false (by decide)

theorem applyOps_log_and_reset (s : Sheets) (idx : Nat) (r : Record)
    (name : String) (p1 p2 p3 : Bool) (ld nl nn : Nat)
    (h : s.main[idx]? = some r) :
    applyOps s (log_and_reset_ops idx name p1 p2 p3 ld nl nn) =
      { main := s.main.set idx
          { r with last_session_date := dateStr nl,
                   next_session_date := dateStr nn,
                   p1 := "FALSE", p2 := "FALSE", p3 := "FALSE" },
        hist := s.hist ++
          [[dateStr ld, name, pyBoolStr p1, pyBoolStr p2, pyBoolStr p3]] } := by
  simp only [applyOps, log_and_reset_ops, List.foldl_cons, List.foldl_nil,
    applyOp, Nat.add_sub_cancel, h, getElem?_set_of_some _ _ _ _ h,
    List.set_set, setCol]
  norm_num

theorem finish_cycle_eq (s : Sheets) (idx : Nat) (r : Record)
    (h : s.main[idx]? = some r) (today nl nn : Nat) :
    finish_cycle s idx today nl nn =
      { main := s.main.set idx
          { r with last_session_date := dateStr nl,
                   next_session_date := dateStr nn,
                   p1 := "FALSE", p2 := "FALSE", p3 := "FALSE" },
        hist := s.hist ++
          [[dateStr today, r.name, pyBoolStr (isTrue r.p1),
            pyBoolStr (isTrue r.p2), pyBoolStr (isTrue r.p3)]] } := by
  simp only [finish_cycle, h]
  exact applyOps_log_and_reset s idx r r.name _ _ _ today nl nn h

/-- C4: finish_cycle on row idx resets all three checkpoints to FALSE
whatever they were, overwrites the two dates with the supplied values, and
appends exactly one History Entry carrying the run date, the name and the
three checkpoint booleans as read before the reset; a second run leaves the
checkpoints FALSE and appends one further entry recording three false
values. -/
theorem C4_finish_cycle (s : Sheets) (idx : Nat) (r : Record)
    (today nl nn today2 nl2 nn2 : Nat) (h : s.main[idx]? = some r) :
    (finish_cycle s idx today nl nn).main[idx]? =
      some { r with last_session_date := dateStr nl,
                    next_session_date := dateStr nn,
                    p1 := "FALSE", p2 := "FALSE", p3 := "FALSE" }
    ∧ (finish_cycle s idx today nl nn).hist =
      s.hist ++ [[dateStr today, r.name, pyBoolStr (isTrue r.p1),
                  pyBoolStr (isTrue r.p2), pyBoolStr (isTrue r.p3)]]
    ∧ (finish_cycle (finish_cycle s idx today nl nn) idx today2 nl2
        nn2).main[idx]? =
      some { r with last_session_date := dateStr nl2,
                    next_session_date := dateStr nn2,
                    p1 := "FALSE", p2 := "FALSE", p3 := "FALSE" }
    ∧ (finish_cycle (finish_cycle s idx today nl nn) idx today2 nl2
        nn2).hist =
      (finish_cycle s idx today nl nn).hist ++
        [[dateStr today2, r.name, "False", "False", "False"]] := by
  have step1 := finish_cycle_eq s idx r h today nl nn
  have hget1 : (finish_cycle s idx today nl nn).main[idx]? =
      some { r with last_session_date := dateStr nl,
                    next_session_date := dateStr nn,
                    p1 := "FALSE", p2 := "FALSE", p3 := "FALSE" } := by
    rw [step1]
    exact getElem?_set_of_some _ _ _ _ h
  have step2 := finish_cycle_eq (finish_cycle s idx today nl nn) idx
    { r with last_session_date := dateStr nl, next_session_date := dateStr nn,
             p1 := "FALSE", p2 := "FALSE", p3 := "FALSE" } hget1 today2 nl2 nn2
  refine ⟨hget1, by rw [step1], ?_, by rw [step2]; rfl⟩
  rw [step2]
  exact getElem?_set_of_some _ _ _ _ hget1

/-- A concrete one-row table for the finish-cycle witnesses, with
checkpoint 1 done. -/
def sheetsAna : Sheets :=
  ⟨[⟨"Ana", "", "2024-06-03", "2024-06-10", "Wednesday", "TRUE", "FALSE",
     "FALSE"⟩], []⟩

/-- The row of sheetsAna. -/
def recAna : Record :=
  ⟨"Ana", "", "2024-06-03", "2024-06-10", "Wednesday", "TRUE", "FALSE",
   "FALSE"⟩

/-- C4 witness: finish_cycle on sheetsAna, run on 2024-06-10 and again on
2024-06-17. -/
theorem C4_finish_cycle_witness :
    (finish_cycle sheetsAna 0 (toOrdinal 2024 6 10) (toOrdinal 2024 6 10)
        (toOrdinal 2024 6 17)).main[0]? =
      some { recAna with
        last_session_date := dateStr (toOrdinal 2024 6 10),
        next_session_date := dateStr (toOrdinal 2024 6 17),
        p1 := "FALSE", p2 := "FALSE", p3 := "FALSE" }
    ∧ (finish_cycle sheetsAna 0 (toOrdinal 2024 6 10) (toOrdinal 2024 6 10)
        (toOrdinal 2024 6 17)).hist =
      sheetsAna.hist ++ [[dateStr (toOrdinal 2024 6 10), recAna.name,
        pyBoolStr (isTrue recAna.p1), pyBoolStr (isTrue recAna.p2),
        pyBoolStr (isTrue recAna.p3)]]
    ∧ (finish_cycle (finish_cycle sheetsAna 0 (toOrdinal 2024 6 10)
        (toOrdinal 2024 6 10) (toOrdinal 2024 6 17)) 0 (toOrdinal 2024 6 17)
        (toOrdinal 2024 6 17) (toOrdinal 2024 6 24)).main[0]? =
      some { recAna with
        last_session_date := dateStr (toOrdinal 2024 6 17),
        next_session_date := dateStr (toOrdinal 2024 6 24),
        p1 := "FALSE", p2 := "FALSE", p3 := "FALSE" }
    ∧ (finish_cycle (finish_cycle sheetsAna 0 (toOrdinal 2024 6 10)
        (toOrdinal 2024 6 10) (toOrdinal 2024 6 17)) 0 (toOrdinal 2024 6 17)
        (toOrdinal 2024 6 17) (toOrdinal 2024 6 24)).hist =
      (finish_cycle sheetsAna 0 (toOrdinal 2024 6 10) (toOrdinal 2024 6 10)
        (toOrdinal 2024 6 17)).hist ++
        [[dateStr (toOrdinal 2024 6 17), recAna.name, "False", "False",
          "False"]] :=
  C4_finish_cycle sheetsAna 0 recAna (toOrdinal 2024 6 10)
    (toOrdinal 2024 6 10) (toOrdinal 2024 6 17) (toOrdinal 2024 6 17)
    (toOrdinal 2024 6 17) (toOrdinal 2024 6 24) (by decide)

theorem setAt_append (pre : List Record) (a b : Record)
    (suf : List Record) :
    (pre ++ a :: suf).set pre.length b = pre ++ b :: suf := by
  induction pre with
  | nil => rfl
  | cons x xs ih => simp [List.set, ih]

theorem getAt_append (pre : List Record) (a : Record) (suf : List Record) :
    (pre ++ a :: suf)[pre.length]? = some a := by
  induction pre with
  | nil => simp
  | cons x xs ih => simpa using ih

theorem applyOp_updateAt (pre : List Record) (a : Record)
    (suf : List Record) (hist : List (List String)) (c : Nat) (v : String) :
    applyOp ⟨pre ++ a :: suf, hist⟩
        (RemoteOp.updateCell (pre.length + 2) c v) =
      ⟨pre ++ setCol a c v :: suf, hist⟩ := by
  have h := getAt_append pre a suf
  simp only [applyOp, Nat.add_sub_cancel, h, setAt_append]

theorem processRows_cons_skip (today i : Nat) (row : Record)
    (rest : List Record)
    (h : parseDate row.next_session_date = none ∨
      ∃ n, parseDate row.next_session_date = some n ∧ today < n) :
    processRows today i (row :: rest) =
      ((processRows today (i + 1) rest).1,
       (processRows today (i + 1) rest).2.1,
       (processRows today (i + 1) rest).2.2.1,
       (processRows today (i + 1) rest).2.2.2 + 1) := by
  rcases h with h | ⟨n, h, hlt⟩
  · simp [processRows, h]
  · simp [processRows, h, hlt]

theorem processRows_cons_due (today i : Nat) (row : Record)
    (rest : List Record) (n : Nat)
    (hp : parseDate row.next_session_date = some n) (hlt : ¬ today < n) :
    processRows today i (row :: rest) =
      (RemoteOp.updateCell (i + 2) 3 (dateStr n)
         :: RemoteOp.updateCell (i + 2) 4 (dateStr (n + 7))
         :: RemoteOp.updateCell (i + 2) 6 "FALSE"
         :: RemoteOp.updateCell (i + 2) 7 "FALSE"
         :: RemoteOp.updateCell (i + 2) 8 "FALSE"
         :: (processRows today (i + 1) rest).1,
       [dateStr today, row.name, row.p1, row.p2, row.p3]
         :: (processRows today (i + 1) rest).2.1,
       (processRows today (i + 1) rest).2.2.1 + 1,
       (processRows today (i + 1) rest).2.2.2) := by
  simp [processRows, hp, hlt]

theorem applyOps_processRows (today : Nat) (df : List Record) :
    ∀ (pre : List Record) (hist : List (List String)),
      applyOps ⟨pre ++ df, hist⟩ (processRows today pre.length df).1 =
        ⟨pre ++ df.map (dueStep today), hist⟩ := by
  induction df with
  | nil => intro pre hist; rfl
  | cons row rest ih =>
    intro pre hist
    have ihrow : ∀ b : Record,
        applyOps ⟨pre ++ b :: rest, hist⟩
            (processRows today (pre.length + 1) rest).1 =
          ⟨pre ++ b :: rest.map (dueStep today), hist⟩ := by
      intro b
      have h := ih (pre ++ [b]) hist
      simpa using h
    cases hp : parseDate row.next_session_date with
    | none =>
      rw [processRows_cons_skip today pre.length row rest (Or.inl hp)]
      have hd : dueStep today row = row := by simp [dueStep, hp]
      simpa [hd] using ihrow row
    | some n =>
      by_cases hlt : today < n
      · rw [processRows_cons_skip today pre.length row rest
          (Or.inr ⟨n, hp, hlt⟩)]
        have hd : dueStep today row = row := by simp [dueStep, hp, hlt]
        simpa [hd] using ihrow row
      · rw [processRows_cons_due today pre.length row rest n hp hlt]
        have hd : dueStep today row =
            { row with last_session_date := dateStr n,
                       next_session_date := dateStr (n + 7),
                       p1 := "FALSE", p2 := "FALSE", p3 := "FALSE" } := by
          simp [dueStep, hp, hlt]
        have hchain :
            setCol (setCol (setCol (setCol (setCol row 3 (dateStr n)) 4
                (dateStr (n + 7))) 6 "FALSE") 7 "FALSE") 8 "FALSE" =
              { row with last_session_date := dateStr n,
                         next_session_date := dateStr (n + 7),
                         p1 := "FALSE", p2 := "FALSE", p3 := "FALSE" } := by
          simp [setCol]
        simp only [applyOps, List.foldl_cons]
        rw [applyOp_updateAt, applyOp_updateAt, applyOp_updateAt,
          applyOp_updateAt, applyOp_updateAt, hchain]
        have h := ihrow { row with last_session_date := dateStr n,
                                   next_session_date := dateStr (n + 7),
                                   p1 := "FALSE", p2 := "FALSE",
                                   p3 := "FALSE" }
        simp only [applyOps] at h
        rw [h]
        simp [hd]

theorem processRows_counts (today : Nat) (df : List Record) : ∀ i : Nat,
    (processRows today i df).2.2.1 = (df.filter (isDue today)).length
    ∧ (processRows today i df).2.2.2 =
        (df.filter (fun r => ! isDue today r)).length := by
  induction df with
  | nil => intro i; exact ⟨rfl, rfl⟩
  | cons row rest ih =>
    intro i
    cases hp : parseDate row.next_session_date with
    | none =>
      rw [processRows_cons_skip today i row rest (Or.inl hp)]
      have hd : isDue today row = false := by simp [isDue, hp]
      constructor
      · simpa [List.filter_cons, hd] using (ih (i + 1)).1
      · simpa [List.filter_cons, hd] using (ih (i + 1)).2
    | some n =>
      by_cases hlt : today < n
      · rw [processRows_cons_skip today i row rest (Or.inr ⟨n, hp, hlt⟩)]
        have hd : isDue today row = false := by
          simp only [isDue, hp, decide_eq_false_iff_not]
          omega
        constructor
        · simpa [List.filter_cons, hd] using (ih (i + 1)).1
        · simpa [List.filter_cons, hd] using (ih (i + 1)).2
      · rw [processRows_cons_due today i row rest n hp hlt]
        have hd : isDue today row = true := by
          simp only [isDue, hp, decide_eq_true_eq]
          omega
        constructor
        · simpa [List.filter_cons, hd] using (ih (i + 1)).1
        · simpa [List.filter_cons, hd] using (ih (i + 1)).2

theorem processRows_logs (today : Nat) (df : List Record) : ∀ i : Nat,
    (processRows today i df).2.1 =
      (df.filter (isDue today)).map (batchLogRow today) := by
  induction df with
  | nil => intro i; rfl
  | cons row rest ih =>
    intro i
    cases hp : parseDate row.next_session_date with
    | none =>
      rw [processRows_cons_skip today i row rest (Or.inl hp)]
      have hd : isDue today row = false := by simp [isDue, hp]
      simpa [List.filter_cons, hd] using ih (i + 1)
    | some n =>
      by_cases hlt : today < n
      · rw [processRows_cons_skip today i row rest (Or.inr ⟨n, hp, hlt⟩)]
        have hd : isDue today row = false := by
          simp only [isDue, hp, decide_eq_false_iff_not]
          omega
        simpa [List.filter_cons, hd] using ih (i + 1)
      · rw [processRows_cons_due today i row rest n hp hlt]
        have hd : isDue today row = true := by
          simp only [isDue, hp, decide_eq_true_eq]
          omega
        simpa [List.filter_cons, hd, batchLogRow] using ih (i + 1)

theorem processRows_all_update (today : Nat) (df : List Record) :
    ∀ (i : Nat) (op : RemoteOp), op ∈ (processRows today i df).1 →
      opIsUpdate op = true := by
  induction df with
  | nil => intro i op h; simp [processRows] at h
  | cons row rest ih =>
    intro i op h
    cases hp : parseDate row.next_session_date with
    | none =>
      rw [processRows_cons_skip today i row rest (Or.inl hp)] at h
      exact ih (i + 1) op h
    | some n =>
      by_cases hlt : today < n
      · rw [processRows_cons_skip today i row rest (Or.inr ⟨n, hp, hlt⟩)] at h
        exact ih (i + 1) op h
      · rw [processRows_cons_due today i row rest n hp hlt] at h
        simp only [List.mem_cons] at h
        rcases h with rfl | rfl | rfl | rfl | rfl | h
        · rfl
        · rfl
        · rfl
        · rfl
        · rfl
        · exact ih (i + 1) op h

theorem applyOps_appendAll (logs : List (List String)) : ∀ s : Sheets,
    applyOps s (logs.map RemoteOp.appendHistory) =
      ⟨s.main, s.hist ++ logs⟩ := by
  induction logs with
  | nil => intro s; simp [applyOps]
  | cons l ls ih =>
    intro s
    simp only [List.map_cons, applyOps, List.foldl_cons]
    have h := ih ⟨s.main, s.hist ++ [l]⟩
    simp only [applyOps] at h
    simp [applyOp, h]

/-- The combined effect of one batch run on the sheets, assuming the
remote primary sheet and the Local Mirror rows agree (the loop reads the
Mirror and addresses remote rows by the same positions): every due row is
advanced and reset, every other row is untouched, and the prepared history
rows, carrying the checkpoint values read before the reset, land at the end
of the History sheet. -/
theorem batch_effect (today : Nat) (s : Sheets) :
    applyOps s (process_universal_cycle today s.main).1 =
      ⟨s.main.map (dueStep today),
       s.hist ++ (s.main.filter (isDue today)).map (batchLogRow today)⟩ := by
  obtain ⟨main, hist⟩ := s
  simp only [process_universal_cycle, applyOps, List.foldl_append]
  have h1 := applyOps_processRows today main [] hist
  simp only [List.nil_append, List.length_nil, applyOps] at h1
  rw [h1]
  have h2 := applyOps_appendAll ((processRows today 0 main).2.1.map
    RemoteOp.appendHistory |> fun _ => (processRows today 0 main).2.1)
  have h3 := applyOps_appendAll (processRows today 0 main).2.1
    ⟨main.map (dueStep today), hist⟩
  simp only [applyOps] at h3
  rw [h3, processRows_logs today main 0]

theorem filter_length_split (p : Record → Bool) (l : List Record) :
    (l.filter p).length + (l.filter (fun x => ! p x)).length = l.length := by
  induction l with
  | nil => rfl
  | cons x xs ih =>
    by_cases hx : p x <;> simp [List.filter_cons, hx] <;> omega

/-- C5: one batch run processes exactly the rows whose Next_Session_Date
parses and is on or before today: the processed count is the number of due
rows and the skipped count the number of all others; a due row idx ends
with Last_Session_Date = its old Next_Session_Date, Next_Session_Date = old
value + 7 days and all checkpoints FALSE, while a row with a strictly
future date is left entirely unchanged. -/
theorem C5_batch_cycle (today : Nat) (s : Sheets) (idx : Nat) (r : Record)
    (n : Nat) (h : s.main[idx]? = some r)
    (hp : parseDate r.next_session_date = some n) :
    ((process_universal_cycle today s.main).2.1 =
      (s.main.filter (isDue today)).length)
    ∧ ((process_universal_cycle today s.main).2.2 =
      (s.main.filter (fun q => ! isDue today q)).length)
    ∧ (n ≤ today →
        (applyOps s (process_universal_cycle today s.main).1).main[idx]? =
          some { r with last_session_date := dateStr n,
                        next_session_date := dateStr (n + 7),
                        p1 := "FALSE", p2 := "FALSE", p3 := "FALSE" })
    ∧ (today < n →
        (applyOps s (process_universal_cycle today s.main).1).main[idx]? =
          some r) := by
  have hc := processRows_counts today s.main 0
  have heff := batch_effect today s
  refine ⟨?_, ?_, ?_, ?_⟩
  · simpa [process_universal_cycle] using hc.1
  · simpa [process_universal_cycle] using hc.2
  · intro hle
    rw [heff]
    have : (s.main.map (dueStep today))[idx]? =
        Option.map (dueStep today) s.main[idx]? := by
      simp
    simp only [this, h, Option.map_some']
    have hn : ¬ today < n := by omega
    simp [dueStep, hp, hn]
  · intro hgt
    rw [heff]
    have : (s.main.map (dueStep today))[idx]? =
        Option.map (dueStep today) s.main[idx]? := by
      simp
    simp only [this, h, Option.map_some']
    simp [dueStep, hp, hgt]

/-- A two-row table for the batch witnesses: recAna is due on 2024-06-10,
the second row only on 2024-07-01. -/
def sheetsDue : Sheets :=
  ⟨[recAna, ⟨"Fut", "", "2024-06-20", "2024-07-01", "Monday", "FALSE",
     "FALSE", "FALSE"⟩], []⟩

/-- C5 witness: the batch run of 2024-06-10 on sheetsDue, viewed from the
due row at index 0. -/
theorem C5_batch_cycle_witness :
    ((process_universal_cycle (toOrdinal 2024 6 10) sheetsDue.main).2.1 =
      (sheetsDue.main.filter (isDue (toOrdinal 2024 6 10))).length)
    ∧ ((process_universal_cycle (toOrdinal 2024 6 10) sheetsDue.main).2.2 =
      (sheetsDue.main.filter
        (fun q => ! isDue (toOrdinal 2024 6 10) q)).length)
    ∧ (toOrdinal 2024 6 10 ≤ toOrdinal 2024 6 10 →
        (applyOps sheetsDue
          (process_universal_cycle (toOrdinal 2024 6 10)
            sheetsDue.main).1).main[0]? =
          some { recAna with
            last_session_date := dateStr (toOrdinal 2024 6 10),
            next_session_date := dateStr (toOrdinal 2024 6 10 + 7),
            p1 := "FALSE", p2 := "FALSE", p3 := "FALSE" })
    ∧ (toOrdinal 2024 6 10 < toOrdinal 2024 6 10 →
        (applyOps sheetsDue
          (process_universal_cycle (toOrdinal 2024 6 10)
            sheetsDue.main).1).main[0]? = some recAna) :=
  C5_batch_cycle (toOrdinal 2024 6 10) sheetsDue 0 recAna
    (toOrdinal 2024 6 10) (by decide) (by decide)

/-- C10: every batch run returns processed + skipped equal to the number of
rows, and a row whose Next_Session_Date does not parse is counted among the
skipped and left unmodified rather than aborting the run. -/
theorem C10_batch_totals (today : Nat) (s : Sheets) :
    (process_universal_cycle today s.main).2.1 +
        (process_universal_cycle today s.main).2.2 = s.main.length
    ∧ ∀ (idx : Nat) (r : Record), s.main[idx]? = some r →
        parseDate r.next_session_date = none →
          (applyOps s (process_universal_cycle today s.main).1).main[idx]? =
            some r := by
  have hc := processRows_counts today s.main 0
  constructor
  · have hs := filter_length_split (isDue today) s.main
    have h1 : (process_universal_cycle today s.main).2.1 =
        (s.main.filter (isDue today)).length := by
      simpa [process_universal_cycle] using hc.1
    have h2 : (process_universal_cycle today s.main).2.2 =
        (s.main.filter (fun q => ! isDue today q)).length := by
      simpa [process_universal_cycle] using hc.2
    omega
  · intro idx r h hpn
    rw [batch_effect today s]
    have : (s.main.map (dueStep today))[idx]? =
        Option.map (dueStep today) s.main[idx]? := by
      simp
    simp only [this, h, Option.map_some']
    simp [dueStep, hpn]

/-- True for a primary-sheet write that resets a checkpoint cell (column 6,
7 or 8) of the given sheet row. -/
def opIsResetFor (row : Nat) : RemoteOp → Bool
  | .updateCell r c _ => r == row && decide (6 ≤ c)
  | .appendHistory _ => false

/-- The given history entry is appended strictly before every checkpoint
reset addressed to the given sheet row. -/
def appendBeforeReset (ops : List RemoteOp) (row : Nat)
    (entry : List String) : Prop :=
  ∃ i : Fin ops.length, ops.get i = RemoteOp.appendHistory entry ∧
    ∀ j : Fin ops.length, opIsResetFor row (ops.get j) = true →
      (i : Nat) < (j : Nat)

instance (ops : List RemoteOp) (row : Nat) (entry : List String) :
    Decidable (appendBeforeReset ops row entry) := by
  unfold appendBeforeReset
  infer_instance

/-- C2 counterexample: in a batch run over the single due mentee recAna,
the history entry recording the cycle is NOT appended before that mentee
row has its checkpoints reset — the batch flushes all history rows only
after the per-row cell writes. -/
theorem C2_counterexample :
    isDue (toOrdinal 2024 6 10) recAna = true
    ∧ (process_universal_cycle (toOrdinal 2024 6 10) [recAna]).2.1 = 1
    ∧ ¬ appendBeforeReset
        (process_universal_cycle (toOrdinal 2024 6 10) [recAna]).1 2
        (batchLogRow (toOrdinal 2024 6 10) recAna) := by
  decide

/-- C2 amended: the single-mentee log_and_reset does append its history
entry before any checkpoint reset of its row, but the batch processor
issues the whole in-loop sequence of cell writes (dates and checkpoint
resets) first and appends all prepared history rows, still carrying the
pre-reset checkpoint values, only after the loop. -/
theorem C2_write_order :
    (∀ (idx : Nat) (name : String) (p1 p2 p3 : Bool) (ld nl nn : Nat),
      appendBeforeReset (log_and_reset_ops idx name p1 p2 p3 ld nl nn)
        (idx + 2)
        [dateStr ld, name, pyBoolStr p1, pyBoolStr p2, pyBoolStr p3])
    ∧ ∀ (today : Nat) (df : List Record),
        (process_universal_cycle today df).1 =
          (processRows today 0 df).1 ++
            ((df.filter (isDue today)).map (batchLogRow today)).map
              RemoteOp.appendHistory
        ∧ ∀ op ∈ (processRows today 0 df).1, opIsUpdate op = true := by
  constructor
  · intro idx name p1 p2 p3 ld nl nn
    refine ⟨⟨0, by norm_num [log_and_reset_ops]⟩, rfl, ?_⟩
    intro j hj
    rcases j with ⟨jv, hjv⟩
    cases jv with
    | zero => simp [log_and_reset_ops, opIsResetFor] at hj
    | succ k => simp
  · intro today df
    refine ⟨?_, processRows_all_update today df 0⟩
    simp [process_universal_cycle, processRows_logs today df 0]

end Followup
